import Mathlib

/-!
Verification of the invoice-parsing pipeline (backend/app/services):
shallow embedding of the Python sources
  improved_invoice_parser.py, llm_invoice_parser.py,
  carbon_service.py, ocr_service.py
and proofs about the behaviour claimed for them.

Python floats are modelled as rationals, Python dicts as Lean
structures (absent keys become `none` fields), fallible code returns
Option or Except, and the regular expressions used by the sources are
run by a small backtracking engine with Python `re` semantics
(leftmost match, greedy and lazy quantifiers, backtracking through
alternation and optional parts, IGNORECASE flag).
-/

namespace Fork

/-! ## Python string primitives -/

/-- The character set matched by the regex class `\s` and stripped by
Python `str.strip()` (ASCII whitespace as used by these inputs). -/
def isPySpace (c : Char) : Bool :=
  c = ' ' || c = '\t' || c = '\n' || c = '\x0d' || c = '\x0c' || c = '\x0b'

/-- `str.strip()` on a list of characters. -/
def pyStripList (l : List Char) : List Char :=
  ((l.dropWhile isPySpace).reverse.dropWhile isPySpace).reverse

/-- Python `str.strip()`. -/
def pyStrip (s : String) : String :=
  ⟨pyStripList s.data⟩

/-- Python `str.lower()` (ASCII). -/
def pyLower (s : String) : String :=
  ⟨s.data.map Char.toLower⟩

/-- Python `str.upper()` (ASCII). -/
def pyUpper (s : String) : String :=
  ⟨s.data.map Char.toUpper⟩

/-- Python substring test `pat in hay` on character lists. -/
def containsList : List Char → List Char → Bool
  | hay, pat =>
    if pat.isPrefixOf hay then true
    else match hay with
      | [] => false
      | _ :: t => containsList t pat

/-- Python substring test `pat in hay`. -/
def containsSubstr (hay pat : String) : Bool :=
  containsList hay.data pat.data

/-- Python `str.split(sep)` for a one-character separator: the pieces
between occurrences of the separator (empty pieces kept). -/
def pySplitChar (sep : Char) (s : String) : List String :=
  (s.data.splitOn sep).map (fun l => (⟨l⟩ : String))

/-- Python `len` of a string (number of characters). -/
def pyLen (s : String) : Nat := s.data.length

/-! ## Python float literals

`float(str)` for the decimal strings produced by the regexes of the
sources: optional sign, digits with an optional fractional part and an
optional exponent, surrounding whitespace stripped.  The non-finite
literals `inf` and `nan` are outside the rational model and rejected. -/

def digitVal (c : Char) : Nat := c.toNat - 48

def natOfDigits (l : List Char) : Nat :=
  l.foldl (fun acc c => acc * 10 + digitVal c) 0

/-- Parse `digits [. digits] | . digits` into a rational together with
the remaining characters.  Returns none when no digit is present. -/
def parseDecimalCore (l : List Char) : Option (ℚ × List Char) :=
  let intPart := l.takeWhile Char.isDigit
  let rest := l.dropWhile Char.isDigit
  match rest with
  | '.' :: rest2 =>
      let fracPart := rest2.takeWhile Char.isDigit
      let rest3 := rest2.dropWhile Char.isDigit
      if intPart.isEmpty && fracPart.isEmpty then none
      else
        some ((natOfDigits intPart : ℚ) +
          (natOfDigits fracPart : ℚ) / ((10 : ℚ) ^ fracPart.length), rest3)
  | _ =>
      if intPart.isEmpty then none
      else some ((natOfDigits intPart : ℚ), rest)

/-- Optional exponent part `e[sign]digits`; returns the scale factor and
the remaining characters, or none if an `e` is present but malformed. -/
def parseExponent (l : List Char) : Option (ℚ × List Char) :=
  match l with
  | 'e' :: rest | 'E' :: rest =>
      let (sign, rest2) : (Bool × List Char) :=
        match rest with
        | '+' :: r => (true, r)
        | '-' :: r => (false, r)
        | r => (true, r)
      let ds := rest2.takeWhile Char.isDigit
      let rest3 := rest2.dropWhile Char.isDigit
      if ds.isEmpty then none
      else if sign then some ((10 : ℚ) ^ natOfDigits ds, rest3)
      else some (((10 : ℚ) ^ natOfDigits ds)⁻¹, rest3)
  | rest => some (1, rest)

/-- Python `float(s)` for finite decimal literals. -/
def pyFloatOfString (s : String) : Option ℚ :=
  let l := pyStripList s.data
  let (neg, l2) : (Bool × List Char) :=
    match l with
    | '-' :: r => (true, r)
    | '+' :: r => (false, r)
    | r => (false, r)
  match parseDecimalCore l2 with
  | none => none
  | some (q, rest) =>
      match parseExponent rest with
      | none => none
      | some (scale, rest2) =>
          if rest2.isEmpty then some (if neg then -(q * scale) else q * scale)
          else none

/-! ## Regex engine

A backtracking matcher for the fragment of Python `re` used by the
sources.  Unbounded repetition is only ever applied to single-character
atoms in those patterns, which the syntax below enforces; that makes the
matcher structurally recursive while reproducing the backtracking order
of the Python engine (alternatives left to right, greedy quantifiers
longest first, lazy quantifiers shortest first). -/

/-- One element of a character class. -/
inductive ClsElem where
  | single (c : Char)
  | range (lo hi : Char)
  | digit
  | space
  deriving Repr, DecidableEq

/-- A character class `[...]` or `[^...]`. -/
structure Cls where
  neg : Bool
  elems : List ClsElem
  deriving Repr, DecidableEq

/-- A single-character pattern piece. -/
inductive Atom where
  | cls (c : Cls)
  | lit (c : Char)
  | dot
  deriving Repr, DecidableEq

def clsElemMatch (ci : Bool) (e : ClsElem) (c : Char) : Bool :=
  match e with
  | .single d => if ci then c.toLower = d.toLower else c = d
  | .range lo hi =>
      (lo ≤ c && c ≤ hi) ||
        (ci && ((lo ≤ c.toLower && c.toLower ≤ hi) ||
                (lo ≤ c.toUpper && c.toUpper ≤ hi)))
  | .digit => c.isDigit
  | .space => isPySpace c

def atomMatch (ci : Bool) (a : Atom) (c : Char) : Bool :=
  match a with
  | .lit d => if ci then c.toLower = d.toLower else c = d
  | .dot => c ≠ '\n'
  | .cls cl =>
      let m := cl.elems.any (fun e => clsElemMatch ci e c)
      if cl.neg then !m else m

/-- Regex syntax: sequencing, alternation, capture groups, anchors, and
quantifiers whose unbounded forms are restricted to atoms. -/
inductive RE where
  | eps
  | atom (a : Atom)
  | seq (r1 r2 : RE)
  | alt (r1 r2 : RE)
  | starAtom (a : Atom) (lazy : Bool)
  | repAtom (a : Atom) (lo hi : Nat)
  | opt (r : RE) (lazy : Bool)
  | group (idx : Nat) (r : RE)
  | bol
  | eol
  deriving Repr

/-- Captured group spans, most recent binding first: (index, start, stop). -/
abbrev Caps := List (Nat × Nat × Nat)

/-- Length of the maximal run of characters matching atom `a`. -/
def runLen (ci : Bool) (a : Atom) : List Char → Nat
  | [] => 0
  | c :: rest => if atomMatch ci a c then runLen ci a rest + 1 else 0

/-- Try continuation `k` after consuming `i` characters, for each `i` in
`idxs` in order; first success wins. -/
def tryDrops (rest : List Char) (pos : Nat) (caps : Caps)
    (k : List Char → Nat → Caps → Option (Nat × Caps)) :
    List Nat → Option (Nat × Caps)
  | [] => none
  | i :: is =>
      match k (rest.drop i) (pos + i) caps with
      | some res => some res
      | none => tryDrops rest pos caps k is

/-- The backtracking matcher in continuation-passing style.  `rest` is
the unread input, `pos` the absolute position of its head, and the
continuation receives the state after this pattern piece. -/
def matchRE (ci : Bool) (slen : Nat) :
    RE → List Char → Nat → Caps →
    (List Char → Nat → Caps → Option (Nat × Caps)) → Option (Nat × Caps)
  | .eps, rest, pos, caps, k => k rest pos caps
  | .atom a, rest, pos, caps, k =>
      match rest with
      | [] => none
      | c :: rs => if atomMatch ci a c then k rs (pos + 1) caps else none
  | .seq r1 r2, rest, pos, caps, k =>
      matchRE ci slen r1 rest pos caps
        (fun rs p cs => matchRE ci slen r2 rs p cs k)
  | .alt r1 r2, rest, pos, caps, k =>
      match matchRE ci slen r1 rest pos caps k with
      | some res => some res
      | none => matchRE ci slen r2 rest pos caps k
  | .starAtom a lazy, rest, pos, caps, k =>
      let n := runLen ci a rest
      let idxs := if lazy then List.range (n + 1)
                  else (List.range (n + 1)).reverse
      tryDrops rest pos caps k idxs
  | .repAtom a lo hi, rest, pos, caps, k =>
      let n := min (runLen ci a rest) hi
      if n < lo then none
      else
        let idxs := ((List.range (n - lo + 1)).map (fun i => n - i))
        tryDrops rest pos caps k idxs
  | .opt r lazy, rest, pos, caps, k =>
      if lazy then
        match k rest pos caps with
        | some res => some res
        | none => matchRE ci slen r rest pos caps k
      else
        match matchRE ci slen r rest pos caps k with
        | some res => some res
        | none => k rest pos caps
  | .group i r, rest, pos, caps, k =>
      matchRE ci slen r rest pos caps
        (fun rs p cs => k rs p ((i, pos, p) :: cs))
  | .bol, rest, pos, caps, k =>
      if pos = 0 then k rest pos caps else none
  | .eol, rest, pos, caps, k =>
      match rest with
      | [] => k rest pos caps
      | ['\n'] => k rest pos caps
      | _ => none

/-- A successful match: span in the subject plus captured group spans. -/
structure MatchData where
  mstart : Nat
  mstop : Nat
  caps : Caps
  deriving Repr, DecidableEq

/-- Attempt to match `r` at position `start` of `s` (Python `re.match`
behaviour when `start = 0`). -/
def matchAt (ci : Bool) (r : RE) (s : List Char) (start : Nat) :
    Option MatchData :=
  match matchRE ci s.length r (s.drop start) start []
      (fun _ p cs => some (p, cs)) with
  | some (stop, caps) => some ⟨start, stop, caps⟩
  | none => none

/-- Python `re.match(r, s)`: anchored at the start. -/
def reMatch (ci : Bool) (r : RE) (s : String) : Option MatchData :=
  matchAt ci r s.data 0

/-- Try positions in `starts` in order (leftmost first). -/
def searchFrom (ci : Bool) (r : RE) (s : List Char) :
    List Nat → Option MatchData
  | [] => none
  | i :: is =>
      match matchAt ci r s i with
      | some m => some m
      | none => searchFrom ci r s is

/-- Python `re.search(r, s)`: leftmost match. -/
def reSearch (ci : Bool) (r : RE) (s : String) : Option MatchData :=
  searchFrom ci r s.data (List.range (s.data.length + 1))

/-- The text of capture group `i` of a match against subject `s`
(Python `m.group(i)`). -/
def groupStr (s : String) (m : MatchData) (i : Nat) : Option String :=
  match m.caps.find? (fun t => t.1 = i) with
  | some (_, st, en) => some ⟨(s.data.take en).drop st⟩
  | none => none

/-- Start position of capture group `i` (Python `m.start(i)`). -/
def groupStart (m : MatchData) (i : Nat) : Option Nat :=
  match m.caps.find? (fun t => t.1 = i) with
  | some (_, st, _) => some st
  | none => none

/-- Stop position of capture group `i` (Python `m.end(i)`). -/
def groupStop (m : MatchData) (i : Nat) : Option Nat :=
  match m.caps.find? (fun t => t.1 = i) with
  | some (_, _, en) => some en
  | none => none

/-! Pattern-building helpers. -/

def reSeqList : List RE → RE
  | [] => .eps
  | [r] => r
  | r :: rs => .seq r (reSeqList rs)

def reAltList : List RE → RE
  | [] => .eps
  | [r] => r
  | r :: rs => .alt r (reAltList rs)

/-- A literal string as a pattern. -/
def reStr (s : String) : RE :=
  reSeqList (s.data.map (fun c => RE.atom (.lit c)))

/-- Greedy `a+`. -/
def plusG (a : Atom) : RE := .seq (.atom a) (.starAtom a false)

/-- Greedy `a*`. -/
def starG (a : Atom) : RE := .starAtom a false

/-- Lazy `a*?`. -/
def starL (a : Atom) : RE := .starAtom a true

/-- Greedy `a?` on an atom. -/
def optAtomG (a : Atom) : RE := .opt (.atom a) false

/-- The class `\d`. -/
def digitAtom : Atom := .cls ⟨false, [.digit]⟩

/-- The class `\s`. -/
def spaceAtom : Atom := .cls ⟨false, [.space]⟩

/-- The class `[0-9,]`. -/
def digitCommaAtom : Atom := .cls ⟨false, [.range '0' '9', .single ',']⟩

/-- The class `[0-9]`. -/
def digit09Atom : Atom := .cls ⟨false, [.range '0' '9']⟩

/-- A negated class of single characters. -/
def negCls (cs : List Char) : Atom := .cls ⟨true, cs.map ClsElem.single⟩

/-- The class `[A-Za-z]`. -/
def alphaAtom : Atom := .cls ⟨false, [.range 'A' 'Z', .range 'a' 'z']⟩

/-! ## ImprovedInvoiceParser (improved_invoice_parser.py)

The heuristic table parser.  The claims touch `_clean_text`,
`_extract_total`, `_parse_table_row` and `_categorize_ingredient`;
those are embedded here. -/

/-- An extracted line item (the `ExtractedItem` dataclass; the
`attributes` field is always the empty dict at every construction site
and is omitted).  The same record also models the per-item dicts built
by `LLMInvoiceParser._validate_and_clean_data`, which have the same
keys. -/
structure ExtractedItem where
  name : String
  quantity : ℚ
  unit : String
  price : ℚ
  category : String
  confidence : ℚ
  deriving Repr, DecidableEq

/-- Python `re.sub` of the pattern `\s+` by a single space, as a single
left-to-right scan: the flag records whether the scan stands inside a
whitespace run whose replacement space was already emitted. -/
def collapseWsAux : Bool → List Char → List Char
  | _, [] => []
  | inRun, c :: rest =>
      if isPySpace c then
        if inRun then collapseWsAux true rest
        else ' ' :: collapseWsAux true rest
      else c :: collapseWsAux false rest

/-- Python `re.sub` of the pattern `\s+` by a single space: each maximal
whitespace run becomes one space. -/
def collapseWsList (l : List Char) : List Char :=
  collapseWsAux false l

def isLowerAZ (c : Char) : Bool := 'a' ≤ c && c ≤ 'z'

def isUpperAZ (c : Char) : Bool := 'A' ≤ c && c ≤ 'Z'

/-- Python `re.sub` of `([a-z])([A-Z])` by backreference-1 space
backreference-2: inserts a space between a lowercase letter and an
immediately following uppercase letter, resuming the scan after each
replaced pair. -/
def spaceCamelList : List Char → List Char
  | c1 :: c2 :: rest =>
      if isLowerAZ c1 && isUpperAZ c2 then c1 :: ' ' :: c2 :: spaceCamelList rest
      else c1 :: spaceCamelList (c2 :: rest)
  | l => l

/-- The method `_clean_text`: collapse whitespace runs (this also merges
all lines into one), then split joined camel-case words. -/
def cleanText (s : String) : String :=
  ⟨spaceCamelList (collapseWsList s.data)⟩

/-- Capture group `([0-9,]+\.?[0-9]*)` used by the total patterns. -/
def amountGroup : RE :=
  .group 1 (reSeqList [plusG digitCommaAtom, optAtomG (.lit '.'), starG digit09Atom])

/-- The seven per-line patterns of `_extract_total`
(`total_patterns_extended`), in source order. -/
def totalPatternsExtended : List RE :=
  [ -- TOTAL[:]\s*\$?([0-9,]+\.?[0-9]*)
    reSeqList [reStr "TOTAL", .atom (.lit ':'), starG spaceAtom,
      optAtomG (.lit '$'), amountGroup],
    -- (?:Grand\s+)?Total[:]\s*\$?([0-9,]+\.?[0-9]*)
    reSeqList [.opt (reSeqList [reStr "Grand", plusG spaceAtom]) false,
      reStr "Total", .atom (.lit ':'), starG spaceAtom,
      optAtomG (.lit '$'), amountGroup],
    -- Amount\s+Due[:]\s*\$?([0-9,]+\.?[0-9]*)
    reSeqList [reStr "Amount", plusG spaceAtom, reStr "Due",
      .atom (.lit ':'), starG spaceAtom, optAtomG (.lit '$'), amountGroup],
    -- Balance[:]\s*\$?([0-9,]+\.?[0-9]*)
    reSeqList [reStr "Balance", .atom (.lit ':'), starG spaceAtom,
      optAtomG (.lit '$'), amountGroup],
    -- TOTAL\s*[:]\s*\$([0-9,]+\.?[0-9]*)
    reSeqList [reStr "TOTAL", starG spaceAtom, .atom (.lit ':'),
      starG spaceAtom, .atom (.lit '$'), amountGroup],
    -- TOTAL\s+\$([0-9,]+\.?[0-9]*)
    reSeqList [reStr "TOTAL", plusG spaceAtom, .atom (.lit '$'), amountGroup],
    -- \$([0-9,]+\.?[0-9]*)\s*$
    reSeqList [.atom (.lit '$'), amountGroup, starG spaceAtom, .eol] ]

/-- The two whole-text patterns of `_extract_total`
(`total_patterns_global`), in source order. -/
def totalPatternsGlobal : List RE :=
  [ -- TOTAL[:]\s*\$([0-9,]+\.?[0-9]*)
    reSeqList [reStr "TOTAL", .atom (.lit ':'), starG spaceAtom,
      .atom (.lit '$'), amountGroup],
    -- TOTAL\s*[:]\s*\$([0-9,]+\.?[0-9]*)
    reSeqList [reStr "TOTAL", starG spaceAtom, .atom (.lit ':'),
      starG spaceAtom, .atom (.lit '$'), amountGroup] ]

/-- Remove the commas of a matched amount (`.replace(",", "")`). -/
def removeCommas (s : String) : String :=
  ⟨s.data.filter (· ≠ ',')⟩

/-- Try each total pattern on `text` in order with `re.search` and
IGNORECASE; on a match, convert group 1 with commas removed via
`float`, falling through to the next pattern when the conversion
raises. -/
def tryTotalPatterns : List RE → String → Option ℚ
  | [], _ => none
  | p :: ps, text =>
      match reSearch true p text with
      | some m =>
          match (groupStr text m 1).bind (fun g => pyFloatOfString (removeCommas g)) with
          | some q => some q
          | none => tryTotalPatterns ps text
      | none => tryTotalPatterns ps text

/-- The bottom-up line scan of `_extract_total`: the input list is
already reversed; each line is stripped, lines containing "subtotal"
(case-insensitively) are skipped, and the seven patterns are tried. -/
def extractTotalScan : List String → Option ℚ
  | [] => none
  | l :: ls =>
      let line := pyStrip l
      if containsSubstr (pyLower line) "subtotal" then extractTotalScan ls
      else
        match tryTotalPatterns totalPatternsExtended line with
        | some q => some q
        | none => extractTotalScan ls

/-- The method `_extract_total`: scan lines bottom-up, then fall back to
the two global patterns over the space-joined text. -/
def extractTotal (lines : List String) : Option ℚ :=
  match extractTotalScan lines.reverse with
  | some q => some q
  | none => tryTotalPatterns totalPatternsGlobal (String.intercalate " " lines)

/-- Total extraction as performed by `parse_invoice`: the text is first
cleaned by `_clean_text` and split on newlines. -/
def extractTotalOfText (text : String) : Option ℚ :=
  extractTotal (pySplitChar '\n' (cleanText text))

/-- The `ingredient_categories` table, in source order. -/
def ingredientCategories : List (String × List String) :=
  [ ("protein", ["beef", "chicken", "pork", "fish", "tuna", "salmon", "ribeye", "steak"]),
    ("vegetables", ["carrot", "kale", "arugula", "potato", "basil", "onion", "tomato"]),
    ("dairy", ["milk", "cheese", "butter", "cream", "eggs"]),
    ("grains", ["rice", "bread", "flour", "pasta"]),
    ("beverages", ["water", "coffee", "tea", "juice"]),
    ("other", []) ]

/-- The method `_categorize_ingredient`: first category one of whose
keywords occurs in the lowercased name, else "other". -/
def categorizeIngredient (name : String) : String :=
  if name = "" then "other"
  else
    let nl := pyLower name
    match ingredientCategories.find? (fun kv => kv.2.any (fun kw => containsSubstr nl kw)) with
    | some kv => kv.1
    | none => "other"

/-- Alternation `(lb|box|case|bottle|gal|bb)`, in source order. -/
def unitsAlt : RE :=
  reAltList [reStr "lb", reStr "box", reStr "case", reStr "bottle", reStr "gal", reStr "bb"]

/-- Capture group `([0-9]+\.?[0-9]*)` (a price) with index `i`. -/
def priceGroup (i : Nat) : RE :=
  .group i (reSeqList [plusG digit09Atom, optAtomG (.lit '.'), starG digit09Atom])

/-- Row pattern 1:
`^(\d+)\s+(lb|box|case|bottle|gal|bb)\s+([^($]*?)(?:\([^)]*\))?\s*([^$]*?)\s*\$([0-9]+\.?[0-9]*).*?$` -/
def rowPattern1 : RE :=
  reSeqList [.bol, .group 1 (plusG digitAtom), plusG spaceAtom,
    .group 2 unitsAlt, plusG spaceAtom,
    .group 3 (starL (negCls ['(', '$'])),
    .opt (reSeqList [.atom (.lit '('), starG (negCls [')']), .atom (.lit ')')]) false,
    starG spaceAtom,
    .group 4 (starL (negCls ['$'])),
    starG spaceAtom, .atom (.lit '$'), priceGroup 5,
    .starAtom .dot true, .eol]

/-- Row pattern 2:
`^(\d+)\s+(lb|box|case|bottle|gal|bb)\s+([^$]*?)\s*\$([0-9]+\.?[0-9]*).*?$` -/
def rowPattern2 : RE :=
  reSeqList [.bol, .group 1 (plusG digitAtom), plusG spaceAtom,
    .group 2 unitsAlt, plusG spaceAtom,
    .group 3 (starL (negCls ['$'])),
    starG spaceAtom, .atom (.lit '$'), priceGroup 4,
    .starAtom .dot true, .eol]

/-- Row pattern 3:
`^(\d+)\s+(lb|box|case|bottle|gal|bb)\s+(.*?)\s*\$([0-9]+\.?[0-9]*).*?$` -/
def rowPattern3 : RE :=
  reSeqList [.bol, .group 1 (plusG digitAtom), plusG spaceAtom,
    .group 2 unitsAlt, plusG spaceAtom,
    .group 3 (.starAtom .dot true),
    starG spaceAtom, .atom (.lit '$'), priceGroup 4,
    .starAtom .dot true, .eol]

/-- Fallback price search `\$([0-9]+\.?[0-9]*)` (no flags). -/
def priceSearchRE : RE := .seq (.atom (.lit '$')) (priceGroup 1)

/-- Fallback quantity search `^(\d+)` (no flags). -/
def leadNumRE : RE := .seq .bol (.group 1 (plusG digitAtom))

/-- Fallback unit search `\d+\s*(lb|box|case|bottle|gal|bb)` (IGNORECASE). -/
def unitSearchRE : RE :=
  reSeqList [plusG digitAtom, starG spaceAtom, .group 1 unitsAlt]

/-- Name cleanup `re.sub(r'\s+', ' ', name).strip()`. -/
def cleanName (s : String) : String :=
  pyStrip ⟨collapseWsList s.data⟩

/-- Conversion of a matched price/quantity group by Python `float`; the
argument always fits the float grammar at the call sites, making the
default unreachable. -/
def pyFloatD (s : String) : ℚ :=
  (pyFloatOfString s).getD 0

/-- Python `int` of a matched `(\d+)` group. -/
def pyIntOfDigits (s : String) : ℚ :=
  (natOfDigits s.data : ℚ)

/-- Removal of a leading quantity: `re.sub(r'^\d+\s*', '', name)`. -/
def dropLeadQty (s : String) : String :=
  match s.data with
  | c :: _ =>
      if c.isDigit then ⟨(s.data.dropWhile Char.isDigit).dropWhile isPySpace⟩
      else s
  | [] => s

/-- The cleaned full name, defaulting to "Unknown Item" when empty
(the `if not full_name` step of `_parse_table_row`). -/
def fullNameOf (cleaned : String) : String :=
  if cleaned = "" then "Unknown Item" else cleaned

/-- An item built from one of the three row patterns (confidence 0.95). -/
def mkPatternItem (quantity : ℚ) (unit : String) (cleaned : String) (price : ℚ) :
    ExtractedItem :=
  ⟨fullNameOf cleaned, quantity, unit, price,
    categorizeIngredient (fullNameOf cleaned), 19/20⟩

/-- The last-resort item of `_parse_table_row` (confidence 0.7), kept
only when the extracted name is non-empty and longer than two
characters. -/
def mkFallbackItem (name : String) (quantity : ℚ) (unit : String) (price : ℚ) :
    Option ExtractedItem :=
  if name ≠ "" && pyLen name > 2 then
    some ⟨name, quantity, unit, price, categorizeIngredient name, 7/10⟩
  else none

/-- The fallback quantity: a leading `(\d+)` of the stripped line,
defaulting to 1.0. -/
def fallbackQty (line : String) : ℚ :=
  match reSearch false leadNumRE (pyStrip line) with
  | some qm => pyIntOfDigits ((groupStr (pyStrip line) qm 1).getD "")
  | none => 1

/-- The method `_parse_table_row`: the three row patterns are tried in
order with `re.match` and IGNORECASE; then the price-anchored fallback.
In pattern 1 the stripped description and origin groups are joined with
a space and the result stripped; in all patterns the name passes
through whitespace cleanup before the empty-name default. -/
def parseTableRow (line : String) : Option ExtractedItem :=
  match reMatch true rowPattern1 line with
  | some m =>
      some (mkPatternItem (pyIntOfDigits ((groupStr line m 1).getD ""))
        (pyLower ((groupStr line m 2).getD ""))
        (cleanName (pyStrip (pyStrip ((groupStr line m 3).getD "") ++ " " ++
          pyStrip ((groupStr line m 4).getD ""))))
        (pyFloatD ((groupStr line m 5).getD "")))
  | none =>
  match reMatch true rowPattern2 line with
  | some m =>
      some (mkPatternItem (pyIntOfDigits ((groupStr line m 1).getD ""))
        (pyLower ((groupStr line m 2).getD ""))
        (cleanName (pyStrip ((groupStr line m 3).getD "")))
        (pyFloatD ((groupStr line m 4).getD "")))
  | none =>
  match reMatch true rowPattern3 line with
  | some m =>
      some (mkPatternItem (pyIntOfDigits ((groupStr line m 1).getD ""))
        (pyLower ((groupStr line m 2).getD ""))
        (cleanName (pyStrip ((groupStr line m 3).getD "")))
        (pyFloatD ((groupStr line m 4).getD "")))
  | none =>
  match reSearch false priceSearchRE line with
  | none => none
  | some pm =>
      match reSearch true unitSearchRE line with
      | some um =>
          mkFallbackItem (pyStrip ⟨(line.data.take pm.mstart).drop um.mstop⟩)
            (fallbackQty line)
            (pyLower ((groupStr line um 1).getD ""))
            (pyFloatD ((groupStr line pm 1).getD ""))
      | none =>
          mkFallbackItem (pyStrip (dropLeadQty (pyStrip ⟨line.data.take pm.mstart⟩)))
            (fallbackQty line)
            "each"
            (pyFloatD ((groupStr line pm 1).getD ""))

/-! ## JSON values and json.loads

JSON values with numbers as rationals.  Python represents JSON null as
None; the embedding keeps an explicit null constructor and collapses it
to `none` exactly where the code observes `None`. -/

inductive Json where
  | null
  | bool (b : Bool)
  | num (q : ℚ)
  | str (s : String)
  | arr (l : List Json)
  | obj (kvs : List (String × Json))
  deriving Repr

def lbrace : Char := Char.ofNat 123

def rbrace : Char := Char.ofNat 125

/-- JSON inter-token whitespace. -/
def isJsonWs (c : Char) : Bool :=
  c = ' ' || c = '\t' || c = '\n' || c = '\x0d'

def skipJsonWs (l : List Char) : List Char := l.dropWhile isJsonWs

/-- Strict JSON number grammar:
`-? (0 | [1-9][0-9]*) (. [0-9]+)? ([eE][+-]?[0-9]+)?`.  The Python
extensions NaN and Infinity have no rational value and are rejected
(no claim exercises them). -/
def jsonNum (l : List Char) : Option (ℚ × List Char) :=
  let (neg, l1) : (Bool × List Char) :=
    match l with
    | '-' :: r => (true, r)
    | r => (false, r)
  let ds := l1.takeWhile Char.isDigit
  let rest := l1.dropWhile Char.isDigit
  if ds.isEmpty then none
  else if 1 < ds.length && ds.headD 'x' = '0' then none
  else
    let ipart : ℚ := (natOfDigits ds : ℚ)
    let withFrac : Option (ℚ × List Char) :=
      match rest with
      | '.' :: r2 =>
          let fs := r2.takeWhile Char.isDigit
          if fs.isEmpty then none
          else some (ipart + (natOfDigits fs : ℚ) / ((10 : ℚ) ^ fs.length),
                     r2.dropWhile Char.isDigit)
      | _ => some (ipart, rest)
    match withFrac with
    | none => none
    | some (q, rest2) =>
        match parseExponent rest2 with
        | none => none
        | some (scale, rest3) =>
            some (if neg then -(q * scale) else q * scale, rest3)

def hexVal (c : Char) : Option Nat :=
  if c.isDigit then some (c.toNat - 48)
  else if 'a' ≤ c && c ≤ 'f' then some (c.toNat - 87)
  else if 'A' ≤ c && c ≤ 'F' then some (c.toNat - 55)
  else none

/-- Body of a JSON string after the opening quote: literal characters
(control characters rejected, strict mode) and the standard escapes. -/
def jsonStringBody : List Char → List Char → Option (String × List Char)
  | acc, '"' :: rest => some (⟨acc.reverse⟩, rest)
  | acc, '\\' :: e :: rest =>
      match e with
      | '"' => jsonStringBody ('"' :: acc) rest
      | '\\' => jsonStringBody ('\\' :: acc) rest
      | '/' => jsonStringBody ('/' :: acc) rest
      | 'b' => jsonStringBody ('\x08' :: acc) rest
      | 'f' => jsonStringBody ('\x0c' :: acc) rest
      | 'n' => jsonStringBody ('\n' :: acc) rest
      | 'r' => jsonStringBody ('\x0d' :: acc) rest
      | 't' => jsonStringBody ('\t' :: acc) rest
      | 'u' =>
          match rest with
          | h1 :: h2 :: h3 :: h4 :: rest2 =>
              match hexVal h1, hexVal h2, hexVal h3, hexVal h4 with
              | some a, some b, some c, some d =>
                  let n := ((a * 16 + b) * 16 + c) * 16 + d
                  if h : n.isValidChar then
                    jsonStringBody (Char.ofNatAux n h :: acc) rest2
                  else jsonStringBody ('\xfd' :: acc) rest2
              | _, _, _, _ => none
          | _ => none
      | _ => none
  | acc, c :: rest =>
      if c.toNat < 32 then none else jsonStringBody (c :: acc) rest
  | _, [] => none

mutual

/-- Recursive-descent JSON value; `jsonArrTail` and `jsonObjTail` parse
the element lists after the first bracket.  Fuel bounds the recursion. -/
def jsonVal : Nat → List Char → Option (Json × List Char)
  | 0, _ => none
  | fuel + 1, l =>
      match skipJsonWs l with
      | [] => none
      | c :: rest =>
          if c = lbrace then
            match skipJsonWs rest with
            | c2 :: rest2 =>
                if c2 = rbrace then some (.obj [], rest2)
                else jsonObjTail fuel [] (c2 :: rest2)
            | [] => none
          else if c = '[' then
            match skipJsonWs rest with
            | ']' :: rest2 => some (.arr [], rest2)
            | rest2 => jsonArrTail fuel [] rest2
          else if c = '"' then
            match jsonStringBody [] rest with
            | some (s, rest2) => some (.str s, rest2)
            | none => none
          else if "true".data.isPrefixOf (c :: rest) then
            some (.bool true, (c :: rest).drop 4)
          else if "false".data.isPrefixOf (c :: rest) then
            some (.bool false, (c :: rest).drop 5)
          else if "null".data.isPrefixOf (c :: rest) then
            some (.null, (c :: rest).drop 4)
          else
            match jsonNum (c :: rest) with
            | some (q, rest2) => some (.num q, rest2)
            | none => none

/-- Comma-separated array elements up to the closing bracket. -/
def jsonArrTail : Nat → List Json → List Char → Option (Json × List Char)
  | 0, _, _ => none
  | fuel + 1, acc, l =>
      match jsonVal fuel l with
      | none => none
      | some (v, rest) =>
          match skipJsonWs rest with
          | ',' :: rest2 => jsonArrTail fuel (v :: acc) rest2
          | ']' :: rest2 => some (.arr (v :: acc).reverse, rest2)
          | _ => none

/-- Comma-separated object members up to the closing brace. -/
def jsonObjTail : Nat → List (String × Json) → List Char → Option (Json × List Char)
  | 0, _, _ => none
  | fuel + 1, acc, l =>
      match skipJsonWs l with
      | '"' :: rest =>
          match jsonStringBody [] rest with
          | none => none
          | some (k, rest2) =>
              match skipJsonWs rest2 with
              | ':' :: rest3 =>
                  match jsonVal fuel rest3 with
                  | none => none
                  | some (v, rest4) =>
                      match skipJsonWs rest4 with
                      | ',' :: rest5 =>
                          match skipJsonWs rest5 with
                          | c :: rest6 =>
                              if c = '"' then jsonObjTail fuel ((k, v) :: acc) (c :: rest6)
                              else none
                          | [] => none
                      | c :: rest5 =>
                          if c = rbrace then some (.obj ((k, v) :: acc).reverse, rest5)
                          else none
                      | [] => none
              | _ => none
      | _ => none
end

/-- Python `json.loads`: a single JSON document with nothing but
whitespace around it. -/
def jsonParse (s : String) : Option Json :=
  match jsonVal (2 * s.data.length + 4) s.data with
  | some (v, rest) => if (skipJsonWs rest).isEmpty then some v else none
  | none => none

/-- Last binding of a key in a parsed object: `json.loads` lets a later
duplicate key overwrite an earlier one, and dict lookup sees the last. -/
def dictGet (kvs : List (String × Json)) (k : String) : Option Json :=
  kvs.foldl (fun acc kv => if kv.1 = k then some kv.2 else acc) none

/-- Python `dict.get(k, d)`. -/
def dictGetD (kvs : List (String × Json)) (k : String) (d : Json) : Json :=
  (dictGet kvs k).getD d

/-- A stored top-level value: JSON null is the Python value None, which
the result dict model represents as an absent optional. -/
def jsonGetOpt (kvs : List (String × Json)) (k : String) : Option Json :=
  match dictGet kvs k with
  | some .null => none
  | o => o

/-- Rendering of a rational by Python `str`: exact for the integers
(the JSON integers the claims exercise); other values get a fractional
rendering whose only observed property is being non-empty. -/
def qRepr (q : ℚ) : String :=
  if q.den = 1 then toString q.num else toString q.num ++ "/" ++ toString q.den

/-- Python `str()` of a JSON value (containers get a placeholder
rendering; the code only ever tests such strings for truthiness). -/
def pyStrOfJson : Json → String
  | .null => "None"
  | .bool true => "True"
  | .bool false => "False"
  | .num q => qRepr q
  | .str s => s
  | .arr _ => "[...]"
  | .obj _ => "[object]"

/-- Python `float()` of a JSON value; `none` models a raised
ValueError/TypeError. -/
def pyFloatOfJson : Json → Option ℚ
  | .num q => some q
  | .bool b => some (if b then 1 else 0)
  | .str s => pyFloatOfString s
  | _ => none

/-! ## LLMInvoiceParser (llm_invoice_parser.py) -/

/-- The result dict shape shared by `_empty_result`, `_fallback_parse`
and `_validate_and_clean_data` (the latter has no "success" key, the
former two do; absent keys are `none`). -/
structure InvoiceDict where
  success : Option Bool
  vendor_name : Option Json
  total_amount : Option ℚ
  invoice_date : Option Json
  items : List ExtractedItem
  categorized_items : List (String × List ExtractedItem)
  parsing_confidence : Json
  item_count : Nat
  deriving Repr

/-- The method `_empty_result`. -/
def emptyResult : InvoiceDict :=
  { success := some true
    vendor_name := none
    total_amount := none
    invoice_date := none
    items := []
    categorized_items := []
    parsing_confidence := Json.num 0
    item_count := 0 }

/-- Vendor scan of `_fallback_parse`: first of the first five lines
that, once stripped, is longer than five characters and whose
uppercasing contains one of the distributor keywords. -/
def fallbackVendor (lines : List String) : Option String :=
  (lines.take 5).findSome? (fun l =>
    let line := pyStrip l
    if 5 < pyLen line &&
        ["DISTRIBUTORS", "COMPANY", "FARM", "MARKET"].any
          (fun w => containsSubstr (pyUpper line) w)
    then some line else none)

/-- The pattern `\$([0-9,]+\.?[0-9]*)`. -/
def dollarAmountRE : RE := .seq (.atom (.lit '$')) amountGroup

/-- Total scan of `_fallback_parse`: bottom-up over the raw lines;
a line qualifies when it contains "total" (lowercased) and a dollar
sign; the first qualifying line whose matched amount converts wins. -/
def fallbackTotal (lines : List String) : Option ℚ :=
  lines.reverse.findSome? (fun line =>
    if containsSubstr (pyLower line) "total" && containsSubstr line "$" then
      match reSearch false dollarAmountRE line with
      | some m => (groupStr line m 1).bind (fun g => pyFloatOfString (removeCommas g))
      | none => none
    else none)

/-- The date pattern `([A-Za-z]{3,9}\s+[0-9]{1,2},?\s+[0-9]{2,4})`. -/
def fallbackDateRE : RE :=
  .group 1 (reSeqList [.repAtom alphaAtom 3 9, plusG spaceAtom,
    .repAtom digit09Atom 1 2, optAtomG (.lit ','), plusG spaceAtom,
    .repAtom digit09Atom 2 4])

/-- Date scan of `_fallback_parse`: first match in the first ten lines. -/
def fallbackDate (lines : List String) : Option String :=
  (lines.take 10).findSome? (fun line =>
    (reSearch false fallbackDateRE line).bind (fun m => groupStr line m 1))

/-- The method `_fallback_parse`: the orchestrator's internal heuristic
step.  Its items list is the literal empty list. -/
def fallbackParse (text : String) : InvoiceDict :=
  let lines := pySplitChar '\n' text
  { success := some true
    vendor_name := (fallbackVendor lines).map Json.str
    total_amount := fallbackTotal lines
    invoice_date := (fallbackDate lines).map Json.str
    items := []
    categorized_items := []
    parsing_confidence := Json.num (3/10)
    item_count := 0 }

/-- The method `_extract_json_from_response`.  It first attempts a
direct `json.loads` of the stripped output.  When that fails the code
reaches `re.findall` with the pattern containing the construct `(?R)`,
which the Python `re` module does not support: the call raises
`re.error: unknown extension ?R at position 13` (checked against
CPython), so the fenced-block recovery and the final `return None` are
unreachable.  The error value models that exception. -/
def extractJsonFromResponse (llmOutput : String) : Except String Json :=
  let cleaned := pyStrip llmOutput
  match jsonParse cleaned with
  | some j => .ok j
  | none => .error "re.error: unknown extension ?R at position 13"

/-- Python iteration over the value of the "items" key: lists yield
their elements, strings their characters, dicts their keys; other
values raise TypeError. -/
def iterableElems : Json → Except String (List Json)
  | .arr l => .ok l
  | .str s => .ok (s.data.map (fun c => Json.str ⟨[c]⟩))
  | .obj kvs => .ok (kvs.map (fun kv => Json.str kv.1))
  | _ => .error "TypeError: not iterable"

/-- The required-field check of `_validate_and_clean_data`: the cleaned
item is kept only when its name is non-empty (truthy) and its price is
positive. -/
def mkValidItem (name : String) (qty : ℚ) (unit : String) (price : ℚ)
    (category : String) (conf : ℚ) : Option ExtractedItem :=
  if name ≠ "" && 0 < price then
    some ⟨name, qty, unit, price, category, conf⟩
  else none

/-- Per-item cleaning of `_validate_and_clean_data`: every field coerced
(str / float / lower / strip, with the source defaults), the item kept
only when the name is non-empty and the price positive; a failed float
coercion (a raised ValueError/TypeError) skips the item. -/
def cleanItem (j : Json) : Option ExtractedItem :=
  match j with
  | .obj kvs =>
      match pyFloatOfJson (dictGetD kvs "quantity" (Json.num 1)) with
      | none => none
      | some qty =>
      match pyFloatOfJson (dictGetD kvs "price" (Json.num 0)) with
      | none => none
      | some price =>
      match pyFloatOfJson (dictGetD kvs "confidence" (Json.num (4/5))) with
      | none => none
      | some conf =>
          mkValidItem
            (pyStrip (pyStrOfJson (dictGetD kvs "name" (Json.str "Unknown Item"))))
            qty
            (pyStrip (pyLower (pyStrOfJson (dictGetD kvs "unit" (Json.str "each")))))
            price
            (pyStrip (pyLower (pyStrOfJson (dictGetD kvs "category" (Json.str "other")))))
            conf
  | _ => none

/-- Grouping of the valid items by their category field, in first-seen
category order (dict insertion order). -/
def insertCat (acc : List (String × List ExtractedItem)) (it : ExtractedItem) :
    List (String × List ExtractedItem) :=
  if acc.any (fun kv => kv.1 = it.category) then
    acc.map (fun kv => if kv.1 = it.category then (kv.1, kv.2 ++ [it]) else kv)
  else acc ++ [(it.category, [it])]

def groupByCat (items : List ExtractedItem) : List (String × List ExtractedItem) :=
  items.foldl insertCat []

/-- The method `_validate_and_clean_data`.  An error value models an
exception escaping the method (non-dict input, non-iterable items),
which the caller `_llm_parse_with_prompt` catches. -/
def validateAndCleanData (data : Json) : Except String InvoiceDict :=
  match data with
  | .obj kvs =>
      match iterableElems (dictGetD kvs "items" (Json.arr [])) with
      | .error e => .error e
      | .ok itemsJ =>
          let valid := itemsJ.filterMap cleanItem
          .ok { success := none
                vendor_name := jsonGetOpt kvs "vendor_name"
                total_amount := (jsonGetOpt kvs "total_amount").bind pyFloatOfJson
                invoice_date := jsonGetOpt kvs "invoice_date"
                items := valid
                categorized_items := groupByCat valid
                parsing_confidence := dictGetD kvs "parsing_confidence" (Json.num (4/5))
                item_count := valid.length }
  | _ => .error "AttributeError: no attribute get"

/-- Outcome of the `requests.post` call inside `_llm_parse_with_prompt`:
either the request raised, or a response arrived with a status code and
the result of `response.json()` (an error when the body is not JSON). -/
inductive HttpOutcome where
  | raised (msg : String)
  | resp (status : Nat) (body : Except String Json)

/-- The method `_llm_parse_with_prompt`: returns data only for a status
200 response whose JSON body is a dict with a non-empty string under
"response" that itself parses and validates; every failure - transport
error, bad status, empty output, the re.error raised by
`_extract_json_from_response`, a validation exception - is caught and
becomes None. -/
def llmParseWithPrompt (o : HttpOutcome) : Option InvoiceDict :=
  match o with
  | .raised _ => none
  | .resp status body =>
      if status ≠ 200 then none
      else
        match body with
        | .error _ => none
        | .ok (.obj kvs) =>
            match dictGetD kvs "response" (Json.str "") with
            | .str s =>
                let out := pyStrip s
                if out = "" then none
                else
                  match extractJsonFromResponse out with
                  | .error _ => none
                  | .ok parsed =>
                      match validateAndCleanData parsed with
                      | .error _ => none
                      | .ok v => some v
            | _ => none
        | .ok _ => none

/-- What the LLM step of `parse_invoice` did: the availability check
said no, or the HTTP call completed with some outcome, or something in
the step raised (the code's final except branch). -/
inductive LLMStep where
  | unavailable
  | http (o : HttpOutcome)
  | raises (msg : String)

/-- The full result dict of `parse_invoice`: one of the base dicts plus
the keys the orchestrator adds ("parsing_method", "llm_error",
"regex_result"); a `none` field is an absent key. -/
structure ParseResult where
  base : InvoiceDict
  parsing_method : Option String
  llm_error : Option String
  regex_result : Option InvoiceDict
  deriving Repr

/-- A base dict viewed as an orchestrator result (no extra keys yet). -/
def InvoiceDict.asResult (d : InvoiceDict) : ParseResult :=
  ⟨d, none, none, none⟩

/-- The method `parse_invoice` (the hybrid orchestrator).  Totality of
this function models its no-throw contract: every failure of the LLM
step is absorbed into a tagged copy of the heuristic result. -/
def parseInvoice (ocrText : String) (step : LLMStep) : ParseResult :=
  if ocrText = "" || pyLen (pyStrip ocrText) < 10 then emptyResult.asResult
  else
    let regexResult := fallbackParse ocrText
    match step with
    | .unavailable =>
        { regexResult.asResult with parsing_method := some "regex-only" }
    | .raises msg =>
        { regexResult.asResult with
          parsing_method := some "regex-except"
          llm_error := some msg }
    | .http o =>
        match llmParseWithPrompt o with
        | some v =>
            { v.asResult with
              parsing_method := some "llm+regex"
              regex_result := some regexResult }
        | none =>
            { regexResult.asResult with parsing_method := some "regex-fallback" }

/-! ## CarbonService (carbon_service.py) -/

/-- The `carbon_intensities` table, in source (dict insertion) order. -/
def carbonIntensities : List (String × ℚ) :=
  [ ("beef", 60.0), ("ground beef", 60.0), ("steak", 60.0),
    ("lamb", 39.2), ("mutton", 39.2),
    ("pork", 12.1), ("bacon", 12.1), ("ham", 12.1),
    ("chicken", 6.9), ("turkey", 10.9),
    ("fish", 6.1), ("salmon", 11.9), ("tuna", 6.1), ("cod", 2.9),
    ("shrimp", 11.8), ("lobster", 22.0),
    ("cheese", 13.5), ("butter", 23.8), ("cream", 8.0),
    ("milk", 3.2), ("yogurt", 2.2),
    ("eggs", 4.2),
    ("rice", 4.0), ("wheat", 1.4), ("flour", 1.4),
    ("pasta", 1.4), ("bread", 1.3),
    ("potato", 0.3), ("sweet potato", 0.3),
    ("tomato", 2.3), ("local tomato", 0.7),
    ("onion", 0.3), ("local onion", 0.1),
    ("lettuce", 3.5), ("local lettuce", 0.8),
    ("spinach", 2.0), ("local spinach", 0.5),
    ("carrot", 0.4), ("local carrot", 0.1),
    ("bell pepper", 3.0), ("local bell pepper", 0.7),
    ("apple", 0.4), ("local apple", 0.1),
    ("banana", 0.7), ("orange", 0.4),
    ("lemon", 0.6), ("lime", 0.6),
    ("olive oil", 5.4), ("vegetable oil", 3.2),
    ("vinegar", 0.9), ("salt", 0.1),
    ("sugar", 1.8),
    ("basil", 2.1), ("oregano", 2.0), ("thyme", 2.0),
    ("black pepper", 7.0), ("garlic", 0.4),
    ("organic", 0.8), ("local", 0.3), ("imported", 2.5),
    ("default", 2.0) ]

/-- Dict lookup in the intensity table (keys are unique). -/
def lookupIntensity (k : String) : Option ℚ :=
  (carbonIntensities.find? (fun kv => kv.1 = k)).map (fun kv => kv.2)

/-- First table key related to the name by substring in either
direction, in table order (the partial-match loop). -/
def partialMatchKey (n : String) : Option (String × ℚ) :=
  carbonIntensities.find? (fun kv => containsSubstr n kv.1 || containsSubstr kv.1 n)

/-- The modifier chain of the partial match: 0.3 when the name contains
"local", otherwise 0.8 when "organic", otherwise 1.5 when "imported",
otherwise 1 (an if/elif chain: exactly one factor applies). -/
def partialModifier (n : String) : ℚ :=
  if containsSubstr n "local" then 0.3
  else if containsSubstr n "organic" then 0.8
  else if containsSubstr n "imported" then 1.5
  else 1

/-- The method `_find_carbon_intensity`: exact lowercased match, then
first partial match with the modifier, then keyword category fallback
(reading fixed table entries), then the default entry. -/
def findCarbonIntensity (itemName : String) : ℚ :=
  let n := pyStrip (pyLower itemName)
  match lookupIntensity n with
  | some v => v
  | none =>
      match partialMatchKey n with
      | some kv => kv.2 * partialModifier n
      | none =>
          if ["beef", "meat", "steak"].any (fun w => containsSubstr n w) then
            (lookupIntensity "beef").getD 0
          else if ["chicken", "poultry"].any (fun w => containsSubstr n w) then
            (lookupIntensity "chicken").getD 0
          else if ["milk", "cream", "dairy"].any (fun w => containsSubstr n w) then
            (lookupIntensity "milk").getD 0
          else if ["vegetable", "lettuce", "green"].any (fun w => containsSubstr n w) then
            1.0
          else (lookupIntensity "default").getD 0

/-- The method `_get_impact_level`. -/
def getImpactLevel (ci : ℚ) : String :=
  if ci > 20 then "high" else if ci > 5 then "medium" else "low"

/-- The fields of a per-item emission dict (built by
`_calculate_item_emissions`) that `_calculate_sustainability_score`
reads: the impact level and the "local"/"organic" name flags. -/
structure EmissionEntry where
  impact_level : String
  is_local : Bool
  is_organic : Bool
  deriving Repr, DecidableEq

/-- Per-item score: base 80/50/20 by impact level, +15 when local,
+10 when organic, capped at 100 (the loop body of
`_calculate_sustainability_score`). -/
def itemScore (e : EmissionEntry) : Nat :=
  let base : Nat :=
    if e.impact_level = "low" then 80
    else if e.impact_level = "medium" then 50
    else 20
  let s1 := if e.is_local then base + 15 else base
  let s2 := if e.is_organic then s1 + 10 else s1
  min s2 100

/-- The method `_calculate_sustainability_score`: 50 when there are no
items, otherwise `min(int(total_score / n), 100)`; the float division
followed by `int` truncation is Nat floor division for these
non-negative exact values. -/
def calculateSustainabilityScore (l : List EmissionEntry) : Nat :=
  if l.isEmpty then 50
  else min ((l.map itemScore).sum / l.length) 100

/-! ## OCRService (ocr_service.py): layout reconstruction -/

/-- Python `round` (banker's rounding: halves go to the even
neighbour), on the exact rational value. -/
def pyRound (q : ℚ) : ℤ :=
  let f := ⌊q⌋
  if q - f < 1 / 2 then f
  else if q - f > 1 / 2 then f + 1
  else if Even f then f else f + 1

/-- The text information field of a structured OCR line: a
`[text, confidence]` pair, a bare string (confidence defaults to 1.0),
or an unexpected shape (skipped by the code). -/
inductive TextInfo where
  | pair (text : String) (conf : ℚ)
  | txt (text : String)
  | other
  deriving Repr

/-- One element of the `structured_data` list: a `[bbox, text_info]`
line, or a malformed element of fewer than two fields (skipped). -/
inductive OcrRawLine where
  | line (bbox : List (ℚ × ℚ)) (info : TextInfo)
  | malformed
  deriving Repr

/-- A text fragment placed in a row: text, horizontal centre,
confidence (the per-row dicts of `_process_structured_data`). -/
structure ColEntry where
  text : String
  x : ℚ
  conf : ℚ
  deriving Repr

/-- Per-fragment processing of `_process_structured_data`: drop
malformed lines, unexpected text formats and confidences below 0.5; an
empty bounding box raises ZeroDivisionError, which the per-line except
turns into a skip.  Otherwise quantize the vertical centre to a
10-unit bucket with Python rounding and record the horizontal centre. -/
def entryOf (l : OcrRawLine) : Option (ℤ × ColEntry) :=
  match l with
  | .malformed => none
  | .line bbox info =>
      let ti : Option (String × ℚ) :=
        match info with
        | .pair t c => some (t, c)
        | .txt t => some (t, 1)
        | .other => none
      match ti with
      | none => none
      | some (text, conf) =>
          if conf < 1 / 2 then none
          else if bbox.isEmpty then none
          else
            let rowY := (bbox.map Prod.snd).sum / (bbox.length : ℚ)
            let rowKey := pyRound (rowY / 10) * 10
            let colX := (bbox.map Prod.fst).sum / (bbox.length : ℚ)
            some (rowKey, ⟨text, colX, conf⟩)

/-- Append an entry to its row bucket, creating the bucket at the end
on first sight (dict insertion order). -/
def insertRow (acc : List (ℤ × List ColEntry)) (k : ℤ) (e : ColEntry) :
    List (ℤ × List ColEntry) :=
  if acc.any (fun kv => kv.1 = k) then
    acc.map (fun kv => if kv.1 = k then (kv.1, kv.2 ++ [e]) else kv)
  else acc ++ [(k, [e])]

/-- One iteration of the grouping loop. -/
def rowStep (acc : List (ℤ × List ColEntry)) (l : OcrRawLine) :
    List (ℤ × List ColEntry) :=
  match entryOf l with
  | none => acc
  | some (k, e) => insertRow acc k e

/-- The `rows` dict after the grouping loop. -/
def rowsOf (d : List OcrRawLine) : List (ℤ × List ColEntry) :=
  d.foldl rowStep []

/-- Stable insertion of `x` after every element `y` with `le y x`. -/
def insertLe {α : Type} (le : α → α → Bool) (x : α) : List α → List α
  | [] => [x]
  | y :: ys => if le y x then y :: insertLe le x ys else x :: y :: ys

/-- Stable insertion sort (models Python `sorted`). -/
def insSort {α : Type} (le : α → α → Bool) (l : List α) : List α :=
  l.foldl (fun acc x => insertLe le x acc) []

def rowLe (a b : ℤ × List ColEntry) : Bool := a.1 ≤ b.1

def colLe (a b : ColEntry) : Bool := a.x ≤ b.x

/-- The column-joining loop: a separator of four, two or one spaces by
gap size (gaps over 100, over 50, or at most 50 units), no separator
before a column while `last_x` is not yet positive; `last_x` advances
by an estimated text width of 10 units per character. -/
def renderCols : List ColEntry → List Char → ℚ → List Char
  | [], acc, _ => acc
  | c :: cs, acc, lastX =>
      let sep : List Char :=
        if 0 < lastX then
          if 100 < c.x - lastX then "    ".data
          else if 50 < c.x - lastX then "  ".data
          else " ".data
        else []
      renderCols cs (acc ++ sep ++ c.text.data) (c.x + (pyLen c.text : ℚ) * 10)

/-- One output row: columns sorted by horizontal centre, joined, and
stripped. -/
def renderRow (es : List ColEntry) : String :=
  pyStrip ⟨renderCols (insSort colLe es) [] 0⟩

/-- The row buckets in ascending key order (`sorted(rows.keys())`). -/
def sortedRowsOf (d : List OcrRawLine) : List (ℤ × List ColEntry) :=
  insSort rowLe (rowsOf d)

/-- The emitted rows, each with its bucket key. -/
def keyedLines (d : List OcrRawLine) : List (ℤ × String) :=
  (sortedRowsOf d).map (fun kv => (kv.1, renderRow kv.2))

/-- The non-blank output lines, in emission order. -/
def processLines (d : List OcrRawLine) : List String :=
  ((keyedLines d).map Prod.snd).filter (fun l => !(pyStrip l).isEmpty)

/-- The method `_process_structured_data`: the newline join of the
non-blank rows. -/
def processStructuredData (d : List OcrRawLine) : String :=
  String.intercalate "\n" (processLines d)

/-! ## Claims

The rational operations of Batteries are irreducible by default; the
concrete evaluations below need them to reduce. -/

section Claims

attribute [local semireducible] Rat.add Rat.mul Rat.inv Rat.ofScientific Rat.sub

set_option maxRecDepth 4000

/-- C2, counterexample.  On empty input `parse_invoice` returns
`_empty_result`, whose dict has no "parsing_method" key at all, so the
claimed `parsing_method = "heuristic"` fails. -/
theorem C2_counterexample :
    (parseInvoice "" LLMStep.unavailable).parsing_method = none ∧
    (none : Option String) ≠ some "heuristic" := by
  exact ⟨rfl, by decide⟩

/-- C2, amended: for empty raw text, `parse_invoice` returns (without
raising - the embedding is a total function) the empty result: no
items, null vendor, total and date, confidence 0.0, and no
parsing-method field (rather than the claimed value "heuristic"). -/
theorem C2_amended (step : LLMStep) :
    (parseInvoice "" step).base.items = [] ∧
    (parseInvoice "" step).base.vendor_name = none ∧
    (parseInvoice "" step).base.total_amount = none ∧
    (parseInvoice "" step).base.invoice_date = none ∧
    (parseInvoice "" step).base.parsing_confidence = Json.num 0 ∧
    (parseInvoice "" step).parsing_method = none ∧
    parseInvoice "" step = emptyResult.asResult := by
  refine ⟨rfl, rfl, rfl, rfl, rfl, rfl, rfl⟩

/-- C4: evaluation of the code at the failing input.  For a text whose
last lines are "Subtotal: $378.85" then "TOTAL: $427.95", the total
extraction of `parse_invoice` returns 378.85, not the claimed 427.95:
`_clean_text` collapses all whitespace (newlines included), so the
single remaining line contains "subtotal" and the per-line scan skips
it entirely, and the global IGNORECASE fallback pattern for
"TOTAL[:]" then matches inside "Subtotal:". -/
theorem C4_failing_eval :
    extractTotalOfText "Subtotal: $378.85\nTOTAL: $427.95" = some 378.85 ∧
    (378.85 : ℚ) ≠ 427.95 ∧
    extractTotal ["Subtotal: $378.85", "TOTAL: $427.95"] = some 427.95 := by
  refine ⟨by decide, by decide, by decide⟩

/-- C5: evaluation of the code at the failing input.  When the direct
parse of the stripped output fails - here, the only JSON object sits
inside a fenced code block - `_extract_json_from_response` does not
recover it: the `re.findall` it reaches uses the unsupported construct
`(?R)` and raises `re.error`, so there is no fenced-block or
balanced-brace strategy at all; a directly parseable body is the only
success path. -/
theorem C5_failing_eval :
    jsonParse (pyStrip "```json\n\x7b\"a\": 1\x7d\n```") = none ∧
    extractJsonFromResponse "```json\n\x7b\"a\": 1\x7d\n```" =
      .error "re.error: unknown extension ?R at position 13" ∧
    extractJsonFromResponse "\x7b\"a\": 1\x7d" = .ok (Json.obj [("a", Json.num 1)]) := by
  refine ⟨rfl, rfl, by with_unfolding_all rfl⟩

/-- C10: the internal heuristic step `_fallback_parse` always returns a
literal empty items list and item count 0, and therefore every
non-success path of the orchestrator (service unavailable, LLM step
returning null, LLM step raising) delivers an extraction without line
items, whatever the invoice text contains. -/
theorem C10_no_items (text msg : String) (o : HttpOutcome) :
    (fallbackParse text).items = [] ∧
    (fallbackParse text).item_count = 0 ∧
    (parseInvoice text LLMStep.unavailable).base.items = [] ∧
    (parseInvoice text (LLMStep.raises msg)).base.items = [] ∧
    (llmParseWithPrompt o = none →
      (parseInvoice text (LLMStep.http o)).base.items = []) := by
  refine ⟨rfl, rfl, ?_, ?_, ?_⟩
  · unfold parseInvoice
    split
    · rfl
    · rfl
  · unfold parseInvoice
    split
    · rfl
    · rfl
  · intro h
    unfold parseInvoice
    split
    · rfl
    · simp only [h]
      rfl

/-- C10, witness: the quantified statement applied at a concrete text
and a concrete failed LLM outcome. -/
theorem C10_witness :
    (fallbackParse "10 lb Carrots $2.10\nTOTAL: $5").items = [] ∧
    (parseInvoice "10 lb Carrots $2.10\nTOTAL: $5"
      (LLMStep.http (HttpOutcome.resp 500 (.error "boom")))).base.items = [] := by
  refine ⟨(C10_no_items "10 lb Carrots $2.10\nTOTAL: $5" "m"
    (HttpOutcome.resp 500 (.error "boom"))).1, ?_⟩
  exact (C10_no_items "10 lb Carrots $2.10\nTOTAL: $5" "m"
    (HttpOutcome.resp 500 (.error "boom"))).2.2.2.2 rfl

/-- C1, counterexample.  With a parseable text and a forced-null LLM
outcome (here a 500 status), the orchestrator tags the fallback result
"regex-fallback", not the claimed "hybrid-fallback". -/
theorem C1_counterexample :
    (parseInvoice "Hello world invoice"
      (LLMStep.http (HttpOutcome.resp 500 (.error "boom")))).parsing_method =
      some "regex-fallback" ∧
    some "regex-fallback" ≠ some "hybrid-fallback" := by
  exact ⟨rfl, by decide⟩

/-- C1, amended: for a text long enough to be parsed (trimmed length at
least 10), whenever the LLM step returns null the orchestrator returns
the internal heuristic result unchanged except for
`parsing_method = "regex-fallback"`, and whenever the step raises it
returns the heuristic result with `parsing_method = "regex-except"`
plus the error message under `llm_error`; no exception reaches the
caller (the embedding is total). -/
theorem C1_amended (text : String) (o : HttpOutcome) (msg : String)
    (hlen : 10 ≤ pyLen (pyStrip text)) (hnull : llmParseWithPrompt o = none) :
    parseInvoice text (LLMStep.http o) =
      { (fallbackParse text).asResult with parsing_method := some "regex-fallback" } ∧
    parseInvoice text (LLMStep.raises msg) =
      { (fallbackParse text).asResult with
        parsing_method := some "regex-except"
        llm_error := some msg } := by
  have h1 : ¬ text = "" := by
    rintro rfl
    exact absurd hlen (by decide)
  have h2 : ¬ pyLen (pyStrip text) < 10 := not_lt.mpr hlen
  constructor
  · simp only [parseInvoice, h1, h2, hnull]
    rfl
  · simp only [parseInvoice, h1, h2]
    rfl

/-- C1, witness: the amended statement applied at a concrete text and a
concrete null-returning LLM outcome (empty response body). -/
theorem C1_witness :
    parseInvoice "INVOICE from ACME COMPANY"
      (LLMStep.http (HttpOutcome.resp 200 (.ok (Json.obj [("response", Json.str "")])))) =
      { (fallbackParse "INVOICE from ACME COMPANY").asResult with
        parsing_method := some "regex-fallback" } :=
  (C1_amended "INVOICE from ACME COMPANY"
    (HttpOutcome.resp 200 (.ok (Json.obj [("response", Json.str "")])))
    "msg" (by decide) rfl).1

/-- C6, counterexample.  A parsed item whose category string "fruit" is
not one of the six known categories is stored with category "fruit",
not the claimed "other". -/
theorem C6_counterexample :
    (validateAndCleanData (Json.obj [("items", Json.arr [Json.obj
        [("name", Json.str "Dragonfruit"), ("price", Json.num 1),
         ("category", Json.str "fruit")]])])).map
      (fun d => d.items.map ExtractedItem.category) = .ok ["fruit"] ∧
    "fruit" ∉ ["protein", "vegetables", "dairy", "grains", "beverages", "other"] := by
  exact ⟨rfl, by decide⟩

/-- C6, amended: `_validate_and_clean_data` stores a present category
string lowercased and stripped, whatever it is - unknown categories are
not remapped - and only an absent category field defaults to "other". -/
theorem C6_amended (cat : String) :
    (validateAndCleanData (Json.obj [("items", Json.arr [Json.obj
        [("name", Json.str "X"), ("price", Json.num 1),
         ("category", Json.str cat)]])])).map
      (fun d => d.items.map ExtractedItem.category) = .ok [pyStrip (pyLower cat)] ∧
    (validateAndCleanData (Json.obj [("items", Json.arr [Json.obj
        [("name", Json.str "X"), ("price", Json.num 1)]])])).map
      (fun d => d.items.map ExtractedItem.category) = .ok ["other"] := by
  exact ⟨rfl, rfl⟩

/-- C7: when the lowercased stripped name has no exact entry in the
intensity table but is related to some key by substring (in either
direction), the resolved intensity is that (first such) key's value
times the modifier chain - 0.3 for a name containing "local", else 0.8
for "organic", else 1.5 for "imported", else 1.  In particular
"local organic carrots" matches the key "carrot" (value 0.4), resolves
to 0.12 < 5, and gets impact level "low". -/
theorem C7_substring_modifier :
    (∀ name k v, lookupIntensity (pyStrip (pyLower name)) = none →
        partialMatchKey (pyStrip (pyLower name)) = some (k, v) →
        findCarbonIntensity name =
          v * (if containsSubstr (pyStrip (pyLower name)) "local" then 0.3
               else if containsSubstr (pyStrip (pyLower name)) "organic" then 0.8
               else if containsSubstr (pyStrip (pyLower name)) "imported" then 1.5
               else 1)) ∧
    partialMatchKey (pyStrip (pyLower "local organic carrots")) = some ("carrot", 0.4) ∧
    findCarbonIntensity "local organic carrots" = 0.12 ∧
    findCarbonIntensity "local organic carrots" < 5 ∧
    getImpactLevel (findCarbonIntensity "local organic carrots") = "low" := by
  refine ⟨?_, by decide, by decide, by decide, by decide⟩
  intro name k v hnone hpart
  simp only [findCarbonIntensity, hnone, hpart, partialModifier]

/-- C7, witness: the quantified part applied at the concrete name
"organic dragon fruit", whose first substring-related key is the table
entry "organic" itself (value 0.8). -/
theorem C7_witness :
    findCarbonIntensity "organic dragon fruit" =
      0.8 * (if containsSubstr (pyStrip (pyLower "organic dragon fruit")) "local" then 0.3
             else if containsSubstr (pyStrip (pyLower "organic dragon fruit")) "organic" then 0.8
             else if containsSubstr (pyStrip (pyLower "organic dragon fruit")) "imported" then 1.5
             else 1) :=
  C7_substring_modifier.1 "organic dragon fruit" "organic" 0.8 (by decide) (by decide)

/-- C8, counterexample.  For two items with per-item scores 95 and 80
the code returns `int(175/2) = 87`, while the claimed mean is 87.5, so
the score does not equal the mean of the per-item scores. -/
theorem C8_counterexample :
    calculateSustainabilityScore [⟨"low", true, false⟩, ⟨"low", false, false⟩] = 87 ∧
    itemScore ⟨"low", true, false⟩ = 95 ∧
    itemScore ⟨"low", false, false⟩ = 80 ∧
    (87 : ℚ) ≠ (95 + 80) / 2 := by
  refine ⟨by decide, by decide, by decide, by decide⟩

/-- C8, amended: the score is the integer floor of the mean of the
per-item scores min(100, base + bonuses) - it lies within 1 below the
exact mean - it is 50 for an empty sequence, and it always lies in
[0, 100] (the lower bound holds by the Nat return type). -/
theorem C8_amended (l : List EmissionEntry) (hne : l ≠ []) :
    (calculateSustainabilityScore l : ℚ) ≤
      ((l.map itemScore).sum : ℚ) / (l.length : ℚ) ∧
    ((l.map itemScore).sum : ℚ) / (l.length : ℚ) <
      calculateSustainabilityScore l + 1 ∧
    calculateSustainabilityScore l ≤ 100 ∧
    calculateSustainabilityScore [] = 50 := by
  have hn : 0 < l.length := List.length_pos.mpr hne
  have hnq : (0 : ℚ) < (l.length : ℚ) := by exact_mod_cast hn
  have hS100 : (l.map itemScore).sum ≤ 100 * l.length := by
    have hb : ∀ x ∈ l.map itemScore, x ≤ 100 := by
      intro x hx
      obtain ⟨e, _, rfl⟩ := List.mem_map.mp hx
      exact min_le_right _ _
    calc (l.map itemScore).sum ≤ (l.map itemScore).length • 100 :=
          List.sum_le_card_nsmul _ _ hb
      _ = 100 * l.length := by simp [List.length_map, mul_comm]
  have hq100 : (l.map itemScore).sum / l.length ≤ 100 := by
    calc (l.map itemScore).sum / l.length ≤ 100 * l.length / l.length :=
          Nat.div_le_div_right hS100
      _ = 100 := Nat.mul_div_cancel 100 hn
  have hscore : calculateSustainabilityScore l = (l.map itemScore).sum / l.length := by
    unfold calculateSustainabilityScore
    rw [if_neg (by simpa [List.isEmpty_iff] using hne)]
    exact min_eq_left hq100
  have hdm := Nat.div_add_mod (l.map itemScore).sum l.length
  refine ⟨?_, ?_, ?_, by decide⟩
  · rw [hscore, le_div_iff₀ hnq]
    have : (l.map itemScore).sum / l.length * l.length ≤ (l.map itemScore).sum :=
      Nat.div_mul_le_self _ _
    exact_mod_cast this
  · rw [hscore, div_lt_iff₀ hnq]
    have hlt : (l.map itemScore).sum <
        ((l.map itemScore).sum / l.length + 1) * l.length := by
      have hr : (l.map itemScore).sum % l.length < l.length := Nat.mod_lt _ hn
      calc (l.map itemScore).sum
          = l.length * ((l.map itemScore).sum / l.length) +
            (l.map itemScore).sum % l.length := (Nat.div_add_mod _ _).symm
        _ < l.length * ((l.map itemScore).sum / l.length) + l.length := by omega
        _ = ((l.map itemScore).sum / l.length + 1) * l.length := by ring
    exact_mod_cast hlt
  · rw [hscore]
    exact hq100

/-- The name defaulting of the row patterns never yields an empty name. -/
theorem fullNameOf_ne (c : String) : fullNameOf c ≠ "" := by
  unfold fullNameOf
  split
  · decide
  · assumption

/-- A pattern-built row item has a non-empty name. -/
theorem mkPatternItem_name (q : ℚ) (u c : String) (p : ℚ) :
    (mkPatternItem q u c p).name ≠ "" :=
  fullNameOf_ne c

/-- A fallback row item has a non-empty name. -/
theorem mkFallbackItem_name {n : String} {q : ℚ} {u : String} {p : ℚ}
    {it : ExtractedItem} (h : mkFallbackItem n q u p = some it) : it.name ≠ "" := by
  unfold mkFallbackItem at h
  by_cases hc : (n ≠ "" && pyLen n > 2) = true
  · rw [if_pos hc] at h
    cases h
    simp only [Bool.and_eq_true, decide_eq_true_eq] at hc
    exact hc.1
  · rw [if_neg hc] at h
    cases h

/-- An item surviving the required-field check has a non-empty name and
positive price. -/
theorem mkValidItem_props {n : String} {q : ℚ} {u : String} {p : ℚ} {c : String}
    {cf : ℚ} {it : ExtractedItem} (h : mkValidItem n q u p c cf = some it) :
    it.name ≠ "" ∧ 0 < it.price := by
  unfold mkValidItem at h
  by_cases hc : (n ≠ "" && 0 < p) = true
  · rw [if_pos hc] at h
    cases h
    simp only [Bool.and_eq_true, decide_eq_true_eq] at hc
    exact hc
  · rw [if_neg hc] at h
    cases h

/-- Every item stored by the LLM-path item cleaning has a non-empty
name and positive price. -/
theorem cleanItem_props {j : Json} {it : ExtractedItem}
    (h : cleanItem j = some it) : it.name ≠ "" ∧ 0 < it.price := by
  cases j with
  | obj kvs =>
      simp only [cleanItem] at h
      cases hq : pyFloatOfJson (dictGetD kvs "quantity" (Json.num 1)) with
      | none => rw [hq] at h; cases h
      | some qty =>
          rw [hq] at h
          cases hp : pyFloatOfJson (dictGetD kvs "price" (Json.num 0)) with
          | none => rw [hp] at h; cases h
          | some price =>
              rw [hp] at h
              cases hcf : pyFloatOfJson (dictGetD kvs "confidence" (Json.num (4/5))) with
              | none => rw [hcf] at h; cases h
              | some conf =>
                  rw [hcf] at h
                  exact mkValidItem_props h
  | null => cases h
  | bool b => cases h
  | num q => cases h
  | str s => cases h
  | arr l => cases h

/-- C3, counterexample.  The LLM validation keeps an item with quantity
0 (it only checks the name and the price), and the heuristic row parser
returns an item with quantity 0 and price 0 for the row
"0 lb Carrots $0.00" (its patterns accept a zero quantity and a zero
price). -/
theorem C3_counterexample :
    (validateAndCleanData (Json.obj [("items", Json.arr [Json.obj
        [("name", Json.str "Carrots"), ("price", Json.num 1),
         ("quantity", Json.num 0)]])])).map
      (fun d => d.items.map (fun it => (it.name, it.quantity, it.price))) =
      .ok [("Carrots", (0 : ℚ), (1 : ℚ))] ∧
    ¬ ((0 : ℚ) > 0) ∧
    (parseTableRow "0 lb Carrots $0.00").map (fun it => (it.quantity, it.price)) =
      some ((0 : ℚ), (0 : ℚ)) := by
  refine ⟨rfl, by decide, by decide⟩

/-- C3, amended: every item stored by the validated
structured-extraction path has a non-empty name and positive price
(quantity is not checked), and every item returned by the heuristic row
parser has a non-empty name (neither its price nor its quantity is
required to be positive). -/
theorem C3_amended :
    (∀ (d : Json) (cd : InvoiceDict), validateAndCleanData d = .ok cd →
      ∀ it ∈ cd.items, it.name ≠ "" ∧ 0 < it.price) ∧
    (∀ (line : String) (it : ExtractedItem), parseTableRow line = some it →
      it.name ≠ "") := by
  constructor
  · intro d cd h it hit
    cases d with
    | obj kvs =>
        simp only [validateAndCleanData] at h
        cases hI : iterableElems (dictGetD kvs "items" (Json.arr [])) with
        | error e => rw [hI] at h; cases h
        | ok itemsJ =>
            rw [hI] at h
            cases h
            obtain ⟨j, _, hcl⟩ := List.mem_filterMap.mp hit
            exact cleanItem_props hcl
    | null => cases h
    | bool b => cases h
    | num q => cases h
    | str s => cases h
    | arr l => cases h
  · intro line it h
    unfold parseTableRow at h
    generalize reMatch true rowPattern1 line = r1 at h
    generalize reMatch true rowPattern2 line = r2 at h
    generalize reMatch true rowPattern3 line = r3 at h
    generalize reSearch false priceSearchRE line = r4 at h
    generalize reSearch true unitSearchRE line = r5 at h
    cases r1 with
    | some m =>
        simp only [Option.some.injEq] at h
        subst h
        exact mkPatternItem_name _ _ _ _
    | none =>
    cases r2 with
    | some m =>
        simp only [Option.some.injEq] at h
        subst h
        exact mkPatternItem_name _ _ _ _
    | none =>
    cases r3 with
    | some m =>
        simp only [Option.some.injEq] at h
        subst h
        exact mkPatternItem_name _ _ _ _
    | none =>
    cases r4 with
    | none => cases h
    | some pm =>
    cases r5 with
    | some um => exact mkFallbackItem_name h
    | none => exact mkFallbackItem_name h

set_option maxHeartbeats 2000000 in
/-- C3, witness: the amended statement applied on both paths - a
validated item from a concrete parsed object and a heuristic item from
a concrete table row. -/
theorem C3_witness :
    ((⟨"Kale", 1, "each", 2, "other", 4/5⟩ : ExtractedItem).name ≠ "" ∧
      0 < (⟨"Kale", 1, "each", 2, "other", 4/5⟩ : ExtractedItem).price) ∧
    (⟨"Kale", 2, "lb", 5, "vegetables", 19/20⟩ : ExtractedItem).name ≠ "" := by
  constructor
  · exact C3_amended.1
      (Json.obj [("items", Json.arr [Json.obj
        [("name", Json.str "Kale"), ("price", Json.num 2)]])])
      { success := none
        vendor_name := none
        total_amount := none
        invoice_date := none
        items := [⟨"Kale", 1, "each", 2, "other", 4/5⟩]
        categorized_items := [("other", [⟨"Kale", 1, "each", 2, "other", 4/5⟩])]
        parsing_confidence := Json.num (4/5)
        item_count := 1 }
      rfl
      ⟨"Kale", 1, "each", 2, "other", 4/5⟩
      (by simp)
  · exact C3_amended.2 "2 lb Kale $5.00"
      ⟨"Kale", 2, "lb", 5, "vegetables", 19/20⟩
      (by decide)

/-- C8, witness: the amended statement applied at a concrete two-item
list (scores 95 and 80, mean 87.5, returned score 87). -/
theorem C8_witness :
    (calculateSustainabilityScore [⟨"low", false, true⟩, ⟨"medium", false, false⟩] : ℚ) ≤
      (([⟨"low", false, true⟩, ⟨"medium", false, false⟩].map itemScore).sum : ℚ) /
        (([⟨"low", false, true⟩, ⟨"medium", false, false⟩] : List EmissionEntry).length : ℚ) ∧
    (([⟨"low", false, true⟩, ⟨"medium", false, false⟩].map itemScore).sum : ℚ) /
        (([⟨"low", false, true⟩, ⟨"medium", false, false⟩] : List EmissionEntry).length : ℚ) <
      calculateSustainabilityScore [⟨"low", false, true⟩, ⟨"medium", false, false⟩] + 1 ∧
    calculateSustainabilityScore [⟨"low", false, true⟩, ⟨"medium", false, false⟩] ≤ 100 ∧
    calculateSustainabilityScore [] = 50 :=
  C8_amended [⟨"low", false, true⟩, ⟨"medium", false, false⟩] (by decide)

/-- Inserting into a list grows its length by one. -/
theorem insertLe_length {α : Type} (le : α → α → Bool) (x : α) (l : List α) :
    (insertLe le x l).length = l.length + 1 := by
  induction l with
  | nil => rfl
  | cons y ys ih =>
      unfold insertLe
      split
      · simp [ih]
      · simp

theorem foldl_insertLe_length {α : Type} (le : α → α → Bool) (l : List α) :
    ∀ acc : List α,
      (l.foldl (fun acc x => insertLe le x acc) acc).length = acc.length + l.length := by
  induction l with
  | nil => intro acc; simp
  | cons x xs ih =>
      intro acc
      simp only [List.foldl_cons]
      rw [ih, insertLe_length]
      simp only [List.length_cons]
      omega

/-- Insertion sort preserves length. -/
theorem insSort_length {α : Type} (le : α → α → Bool) (l : List α) :
    (insSort le l).length = l.length := by
  unfold insSort
  rw [foldl_insertLe_length]
  simp

theorem mem_insertLe {α : Type} {le : α → α → Bool} {x z : α} {l : List α}
    (h : z ∈ insertLe le x l) : z = x ∨ z ∈ l := by
  induction l with
  | nil => simpa [insertLe] using h
  | cons y ys ih =>
      unfold insertLe at h
      split at h
      · rcases List.mem_cons.mp h with rfl | h2
        · right
          exact List.mem_cons_self _ _
        · rcases ih h2 with h3 | h3
          · left
            exact h3
          · right
            exact List.mem_cons_of_mem _ h3
      · rcases List.mem_cons.mp h with rfl | h2
        · left
          rfl
        · right
          exact h2

/-- Insertion into a sorted list keeps it sorted, for a total and
transitive Boolean order. -/
theorem insertLe_pairwise {α : Type} {le : α → α → Bool}
    (total : ∀ a b, le a b = true ∨ le b a = true)
    (htrans : ∀ a b c, le a b = true → le b c = true → le a c = true)
    {x : α} {l : List α} (h : List.Pairwise (fun a b => le a b = true) l) :
    List.Pairwise (fun a b => le a b = true) (insertLe le x l) := by
  induction l with
  | nil => simp [insertLe]
  | cons y ys ih =>
      rcases List.pairwise_cons.mp h with ⟨hy, hys⟩
      unfold insertLe
      split
      · rename_i hle
        refine List.pairwise_cons.mpr ⟨?_, ih hys⟩
        intro z hz
        rcases mem_insertLe hz with rfl | hz2
        · exact hle
        · exact hy z hz2
      · rename_i hnle
        have hxy : le x y = true := by
          rcases total x y with h1 | h1
          · exact h1
          · exact absurd h1 hnle
        refine List.pairwise_cons.mpr ⟨?_, h⟩
        intro z hz
        rcases List.mem_cons.mp hz with rfl | hz2
        · exact hxy
        · exact htrans x y z hxy (hy z hz2)

theorem foldl_insertLe_pairwise {α : Type} {le : α → α → Bool}
    (total : ∀ a b, le a b = true ∨ le b a = true)
    (htrans : ∀ a b c, le a b = true → le b c = true → le a c = true)
    (l : List α) :
    ∀ acc, List.Pairwise (fun a b => le a b = true) acc →
      List.Pairwise (fun a b => le a b = true)
        (l.foldl (fun acc x => insertLe le x acc) acc) := by
  induction l with
  | nil => intro acc h; simpa using h
  | cons x xs ih =>
      intro acc h
      simp only [List.foldl_cons]
      exact ih _ (insertLe_pairwise total htrans h)

/-- Insertion sort sorts, for a total and transitive Boolean order. -/
theorem insSort_pairwise {α : Type} {le : α → α → Bool}
    (total : ∀ a b, le a b = true ∨ le b a = true)
    (htrans : ∀ a b c, le a b = true → le b c = true → le a c = true)
    (l : List α) :
    List.Pairwise (fun a b => le a b = true) (insSort le l) :=
  foldl_insertLe_pairwise total htrans l [] List.Pairwise.nil

theorem rowLe_total (a b : ℤ × List ColEntry) :
    rowLe a b = true ∨ rowLe b a = true := by
  rcases le_total a.1 b.1 with h | h
  · left
    simpa [rowLe] using h
  · right
    simpa [rowLe] using h

theorem rowLe_trans (a b c : ℤ × List ColEntry)
    (h1 : rowLe a b = true) (h2 : rowLe b c = true) : rowLe a c = true := by
  simp only [rowLe, decide_eq_true_eq] at h1 h2 ⊢
  exact le_trans h1 h2

/-- A grouping step adds at most one row bucket. -/
theorem insertRow_length_le (acc : List (ℤ × List ColEntry)) (k : ℤ) (e : ColEntry) :
    (insertRow acc k e).length ≤ acc.length + 1 := by
  unfold insertRow
  split
  · simp
  · simp

theorem foldl_rowStep_length (d : List OcrRawLine) :
    ∀ acc, (d.foldl rowStep acc).length ≤ acc.length + d.length := by
  induction d with
  | nil => intro acc; simp
  | cons l ls ih =>
      intro acc
      simp only [List.foldl_cons]
      have hstep : (rowStep acc l).length ≤ acc.length + 1 := by
        unfold rowStep
        cases entryOf l with
        | none => simp
        | some p => exact insertRow_length_le acc p.1 p.2
      calc (ls.foldl rowStep (rowStep acc l)).length
          ≤ (rowStep acc l).length + ls.length := ih _
        _ ≤ acc.length + 1 + ls.length := by omega
        _ = acc.length + (l :: ls).length := by
            simp only [List.length_cons]
            omega

/-- The `rows` dict has at most one bucket per input fragment. -/
theorem rowsOf_length_le (d : List OcrRawLine) : (rowsOf d).length ≤ d.length := by
  have h := foldl_rowStep_length d []
  simpa [rowsOf] using h

/-- C9: the layout reconstruction of `_process_structured_data` emits at
most as many lines as there are input fragments, the emitted rows carry
ascending (quantized) vertical-bucket keys, and empty input produces
empty output. -/
theorem C9_layout (d : List OcrRawLine) :
    (processLines d).length ≤ d.length ∧
    List.Pairwise (fun a b : ℤ × String => a.1 ≤ b.1) (keyedLines d) ∧
    processStructuredData [] = "" := by
  refine ⟨?_, ?_, rfl⟩
  · have h1 : (processLines d).length ≤ ((keyedLines d).map Prod.snd).length :=
      List.length_filter_le _ _
    have h2 : ((keyedLines d).map Prod.snd).length = (sortedRowsOf d).length := by
      simp [keyedLines]
    have h3 : (sortedRowsOf d).length = (rowsOf d).length := insSort_length _ _
    have h4 : (rowsOf d).length ≤ d.length := rowsOf_length_le d
    omega
  · have hs : List.Pairwise (fun a b => rowLe a b = true) (sortedRowsOf d) :=
      insSort_pairwise rowLe_total rowLe_trans _
    have hs2 : List.Pairwise (fun a b : ℤ × List ColEntry => a.1 ≤ b.1)
        (sortedRowsOf d) := by
      refine hs.imp ?_
      intro a b hab
      simpa [rowLe] using hab
    unfold keyedLines
    exact List.pairwise_map.mpr (hs2.imp (fun hab => hab))

end Claims

end Fork
